import Mathlib

/-!
Shallow embedding of the core of the schwaizer-bfs-mcp server:
the SSE (SDMX) client `src/src/api/sse-client.js` (endpoint resolver
`getSseUrl`, metadata normalizer `getSseMetadata`, data query builder and
observation parser of `getSseData`) and the PXWEB client's tabular query
builder (`getData`).  JavaScript values that matter to the claims are
modelled explicitly: `undefined` text/attributes as `Option String`,
falsiness of strings (only `""` is falsy), `Object.entries` order as
association-list order, and `Map.set` / property assignment as
replace-in-place-or-append on association lists.  Network fetches are
deterministic oracles passed in as functions; the module-level URL cache is
threaded explicitly as state.
-/

namespace BfsMcp

/-- Model of a JavaScript runtime value as it appears in an observation
record: a string, `undefined`, `null`, or the number `parseFloat s`
(represented by the string it was parsed from; no claim depends on the
numeric value itself, only on whether the slot is a number or `null`). -/
inductive JsValue where
  | str (s : String)
  | undefined
  | null
  | parsedNum (s : String)
  deriving DecidableEq, Repr

/-- JS property-key coercion: `obj[undefined]` uses the key `"undefined"`. -/
def keyOf : Option String → String
  | none => "undefined"
  | some s => s

/-- Lookup in an association list modelling a JS `Map` or plain object. -/
def assocGet {α : Type} (o : List (String × α)) (k : String) : Option α :=
  (o.find? (fun p => p.1 == k)).map (·.2)

/-- `Map.set` / property assignment: replace the first binding of the key in
place, otherwise append a new binding (JS objects and Maps keep insertion
order and hold at most one binding per key). -/
def assocSet {α : Type} (o : List (String × α)) (k : String) (v : α) :
    List (String × α) :=
  match o with
  | [] => [(k, v)]
  | (k', v') :: rest =>
    if k' == k then (k, v) :: rest else (k', v') :: assocSet rest k v

/-- JS `a || b` on two possibly-undefined strings: a string is falsy exactly
when it is `""`; `undefined` is falsy. -/
def jsOrOpt (a b : Option String) : Option String :=
  match a with
  | some s => if s = "" then b else some s
  | none => b

/-- JS `s || d` where `s` is a possibly-undefined string and `d` a string
default (used for `dim.$?.position || '0'`). -/
def jsOrDefault (o : Option String) (d : String) : String :=
  match o with
  | some s => if s = "" then d else s
  | none => d

/-- JS `parseInt(s)` (radix 10): skip leading whitespace, optional sign,
then the maximal run of leading decimal digits; `none` models `NaN` (no
digits found). -/
def parseIntJs (s : String) : Option Int :=
  let cs := s.toList.dropWhile Char.isWhitespace
  let signed : Bool × List Char :=
    match cs with
    | '-' :: rest => (true, rest)
    | '+' :: rest => (false, rest)
    | _ => (false, cs)
  let ds := signed.2.takeWhile Char.isDigit
  if ds.isEmpty then none
  else
    let n : Nat := ds.foldl (fun acc c => acc * 10 + (c.toNat - '0'.toNat)) 0
    some (if signed.1 then -(n : Int) else (n : Int))

/-- `String(b)` for a JS boolean, as interpolated into the cache key. -/
def boolStr (b : Bool) : String := if b then "true" else "false"

/-! ## Endpoint resolver (`getSseUrl`, sse-client.js lines 58-126) -/

/-- One maximal-run regex group: the longest prefix of characters different
from the delimiter; it must be nonempty and must be followed by the
delimiter, which is consumed.  This is exactly what the greedy classes
`[^:]+`, `[^(]+`, `[^)]+` of the URN pattern match at a fixed position. -/
def chopGroup (d : Char) (cs : List Char) : Option (List Char × List Char) :=
  let run := cs.takeWhile (· ≠ d)
  let rest := cs.dropWhile (· ≠ d)
  match run, rest with
  | [], _ => none
  | _, [] => none
  | r, _ :: tail => some (r, tail)

/-- The literal part of the URN pattern `/Dataflow=([^:]+):([^(]+)\(([^)]+)\)/`. -/
def dataflowLit : List Char := "Dataflow=".toList

/-- Try the URN pattern anchored at the start of `cs`; on success return the
three capture groups (agency, dataflow id, version). -/
def matchDataflowAt (cs : List Char) : Option (String × String × String) :=
  if dataflowLit.isPrefixOf cs then
    let rest := cs.drop dataflowLit.length
    match chopGroup ':' rest with
    | none => none
    | some (g1, r1) =>
      match chopGroup '(' r1 with
      | none => none
      | some (g2, r2) =>
        match chopGroup ')' r2 with
        | none => none
        | some (g3, _) => some (⟨g1⟩, ⟨g2⟩, ⟨g3⟩)
  else none

/-- `urn.match(/Dataflow=([^:]+):([^(]+)\(([^)]+)\)/)`: leftmost match — try
every start position from the left, first success wins. -/
def searchDataflow : List Char → Option (String × String × String)
  | [] => none
  | c :: rest =>
    match matchDataflowAt (c :: rest) with
    | some g => some g
    | none => searchDataflow rest

/-- The `for (const urn of dataflowUrns)` loop: the first URN whose parsed
dataflow id (capture group 2) equals the requested identifier wins. -/
def findMatchingUrn (urns : List String) (numberBfs : String) :
    Option (String × String × String) :=
  match urns with
  | [] => none
  | u :: rest =>
    match searchDataflow u.toList with
    | some g => if g.2.1 = numberBfs then some g else findMatchingUrn rest numberBfs
    | none => findMatchingUrn rest numberBfs

/-- The discovery environment: the keys of `dataflowsResponse.references`
returned by a successful `GET {base}/dataflow` call. -/
structure SseEnv where
  urns : List String
  deriving Repr

/-- The module-level `dataflowUrlCache` (a JS `Map` from cache key to URL),
threaded explicitly. -/
abbrev UrlCache := List (String × String)

/-- The cache key `` `${numberBfs}_${metadata}` ``. -/
def cacheKeyOf (numberBfs : String) (metadata : Bool) : String :=
  numberBfs ++ "_" ++ boolStr metadata

/-- The code constructs every failure as a plain `new Error(message)`; there
is a single generic error class, distinguished only by its message. -/
inductive JsError where
  | error (message : String)
  deriving DecidableEq, Repr

def sseBaseUrl : String := "https://disseminate.stats.swiss/rest"

/-- Outcome of one `getSseUrl` call: the returned URL or thrown error, the
cache afterwards, and how many `GET {base}/dataflow` discovery calls the
call performed (0 or 1). -/
structure ResolveOutcome where
  result : Except JsError String
  cache : UrlCache
  discoveryCalls : Nat
  deriving Repr

/-- The URL composed from the matching URN's parts: the metadata-discovery
format `/dataflow/agency/dataflow/version?references=all` or the data-query
format `/data/agency,dataflow,version/`. -/
def buildSseEndpointUrl (agencyId dataflowId version : String)
    (metadata : Bool) : String :=
  if metadata then
    sseBaseUrl ++ "/dataflow/" ++ agencyId ++ "/" ++ dataflowId ++ "/" ++
      version ++ "?references=all"
  else
    sseBaseUrl ++ "/data/" ++ agencyId ++ "," ++ dataflowId ++ "," ++
      version ++ "/"

/-- `getSseUrl(numberBfs, metadata)` with a successful discovery response
`env.urns`: check the cache, otherwise fetch the dataflow list (one
discovery call), scan for the first matching URN, build the metadata or
data URL, cache it under the one requested key, and return it.  A missing
match throws `Dataset ... not found in SSE API`, which the surrounding
catch rethrows wrapped as `Failed to resolve SSE URL for ...`. -/
def getSseUrl (env : SseEnv) (cache : UrlCache) (numberBfs : String)
    (metadata : Bool) : ResolveOutcome :=
  match assocGet cache (cacheKeyOf numberBfs metadata) with
  | some url => ⟨.ok url, cache, 0⟩
  | none =>
    match findMatchingUrn env.urns numberBfs with
    | none =>
      ⟨.error (.error ("Failed to resolve SSE URL for " ++ numberBfs ++
        ": Dataset " ++ numberBfs ++ " not found in SSE API")), cache, 1⟩
    | some (agencyId, dataflowId, version) =>
      ⟨.ok (buildSseEndpointUrl agencyId dataflowId version metadata),
        assocSet cache (cacheKeyOf numberBfs metadata)
          (buildSseEndpointUrl agencyId dataflowId version metadata), 1⟩

/-! ## Metadata normalizer (`getSseMetadata`, sse-client.js lines 165-273) -/

/-- One `common:Name` element: its `xml:lang` attribute and text content,
each possibly absent. -/
structure NameXml where
  lang : Option String
  text : Option String
  deriving DecidableEq, Repr

/-- One `structure:Dimension` element after xml2js parsing: its `id` and
`position` attributes and the codelist id reached through
`LocalRepresentation[0].Enumeration[0].Ref[0].$.id`, each possibly absent. -/
structure DimensionXml where
  id : Option String
  position : Option String
  codelistRef : Option String
  deriving DecidableEq, Repr

/-- One `structure:Code` element: its `id` attribute and localized names. -/
structure CodeXml where
  id : Option String
  names : List NameXml
  deriving DecidableEq, Repr

/-- One `structure:Codelist` element: its `id` attribute, localized names,
and codes (`codelist['structure:Code'] || []`). -/
structure CodelistXml where
  id : Option String
  names : List NameXml
  codes : List CodeXml
  deriving DecidableEq, Repr

/-- The parsed SDMX structure document, at the granularity the normalizer
reads it: the dimension list and the codelists (each `|| []` when the
nested path is absent). -/
structure SdmxStructure where
  dimensionList : List DimensionXml
  codelists : List CodelistXml
  deriving DecidableEq, Repr

/-- The `dimInfo` record: `id`, `position: parseInt(dim.$?.position || '0')`
(`none` models `NaN`), and the codelist reference. -/
structure DimInfo where
  id : Option String
  position : Option Int
  codelistRef : Option String
  deriving DecidableEq, Repr

def dimInfoOf (dim : DimensionXml) : DimInfo :=
  ⟨dim.id, parseIntJs (jsOrDefault dim.position "0"), dim.codelistRef⟩

/-- Shared label-resolution pattern: start from the fallback id, prefer the
name in the requested language, otherwise the first declared name; in either
case an absent or empty text falls back to the id (`langName._ || codeId`). -/
def resolveName (names : List NameXml) (lang : String) (fallback : Option String) :
    Option String :=
  match names.find? (fun n => n.lang == some lang) with
  | some n => jsOrOpt n.text fallback
  | none =>
    match names with
    | [] => fallback
    | n :: _ => jsOrOpt n.text fallback

/-- One entry of a codelist in `codelistMap`: the code id and its resolved
label. -/
structure CodeEntry where
  code : Option String
  label : Option String
  deriving DecidableEq, Repr

/-- `codelistMap`: JS object keyed by the (key-coerced) codelist id, holding
each codelist's codes with resolved labels; later codelists with the same id
overwrite earlier ones. -/
def buildCodelistMap (lang : String) (codelists : List CodelistXml) :
    List (String × List CodeEntry) :=
  codelists.foldl
    (fun acc cl =>
      assocSet acc (keyOf cl.id)
        (cl.codes.map (fun c => ⟨c.id, resolveName c.names lang c.id⟩)))
    []

/-- `codelistNames`: JS object from (key-coerced) codelist id to the
codelist's own localized name. -/
def buildCodelistNames (lang : String) (codelists : List CodelistXml) :
    List (String × Option String) :=
  codelists.foldl
    (fun acc cl => assocSet acc (keyOf cl.id) (resolveName cl.names lang cl.id))
    []

/-- One element of the flat array `getSseMetadata` returns: one row per
(dimension, codelist value) pair. -/
structure MetaRow where
  code : Option String
  text : Option String
  value : Option String
  valueText : Option String
  position_dimension : Option Int
  deriving DecidableEq, Repr

/-- The body of the combine loop for one `dimInfo` entry: the guard
`if (dim.codelistRef && codelistMap[dim.codelistRef])` (a `""` reference is
falsy; a missing map entry is falsy; an empty code array is truthy), then
one row pushed per code. -/
def rowsForDim (clMap : List (String × List CodeEntry))
    (clNames : List (String × Option String)) (dim : DimInfo) : List MetaRow :=
  match dim.codelistRef with
  | none => []
  | some ref =>
    if ref = "" then []
    else
      match assocGet clMap ref with
      | none => []
      | some codes =>
        let codelistText := jsOrOpt ((assocGet clNames ref).bind id) dim.id
        codes.map (fun c => ⟨dim.id, codelistText, c.code, c.label, dim.position⟩)

/-- The pure normalization performed by `getSseMetadata` on the parsed
structure document: build `dimInfo`, `codelistMap` and `codelistNames`, then
concatenate the rows of every dimension. -/
def normalizeSdmx (lang : String) (doc : SdmxStructure) : List MetaRow :=
  let dimInfos := doc.dimensionList.map dimInfoOf
  let clMap := buildCodelistMap lang doc.codelists
  let clNames := buildCodelistNames lang doc.codelists
  dimInfos.flatMap (rowsForDim clMap clNames)

/-- ASCII case folding of one character, as `toLowerCase()` behaves on the
language codes this code handles. -/
def charLower (c : Char) : Char :=
  if 65 ≤ c.toNat ∧ c.toNat ≤ 90 then Char.ofNat (c.toNat + 32) else c

/-- JS `String.prototype.toLowerCase()` on the inputs in scope. -/
def jsToLower (s : String) : String := ⟨s.data.map charLower⟩

/-- JS `String.prototype.trim()`: strip leading and trailing whitespace. -/
def jsTrim (s : String) : String :=
  ⟨((s.data.dropWhile Char.isWhitespace).reverse.dropWhile
      Char.isWhitespace).reverse⟩

/-- `validateLanguage` (formatting.js): lowercase, then membership in the
fixed four-element list; otherwise throw. -/
def validateLanguage (language : String) : Except JsError String :=
  let lang := jsToLower language
  if ["de", "fr", "it", "en"].contains lang then .ok lang
  else
    .error (.error ("Invalid language: " ++ language ++
      ". Must be one of: de, fr, it, en"))

/-- `formatBfsNumber` (formatting.js): reject a falsy (empty) identifier,
otherwise trim. -/
def formatBfsNumber (numberBfs : String) : Except JsError String :=
  if numberBfs = "" then .error (.error "BFS number is required")
  else .ok (jsTrim numberBfs)

/-- A deterministic oracle for `fetch` of the metadata URL followed by
xml2js parsing: maps (url, Accept-Language) to the parsed structure or the
message of the thrown HTTP/parse error. -/
abbrev MetaFetch := String → String → Except String SdmxStructure

/-- Outcome of one `getSseMetadata` call: returned rows or thrown error, the
URL cache afterwards, and the number of dataflow discovery calls made. -/
structure MetaOutcome where
  result : Except JsError (List MetaRow)
  cache : UrlCache
  discoveryCalls : Nat

/-- `getSseMetadata(numberBfs, language)`: validate inputs, resolve the
metadata URL (note: outside the try block, so resolver errors propagate
unchanged), fetch and parse the structure document, and normalize; fetch or
parse failures are wrapped as `Failed to fetch SSE metadata for ...`. -/
def getSseMetadata (env : SseEnv) (fetchMeta : MetaFetch) (cache : UrlCache)
    (numberBfs language : String) : MetaOutcome :=
  match validateLanguage language with
  | .error e => ⟨.error e, cache, 0⟩
  | .ok lang =>
    match formatBfsNumber numberBfs with
    | .error e => ⟨.error e, cache, 0⟩
    | .ok bfsNum =>
      let r := getSseUrl env cache bfsNum true
      match r.result with
      | .error e => ⟨.error e, r.cache, r.discoveryCalls⟩
      | .ok url =>
        match fetchMeta url lang with
        | .error msg =>
          ⟨.error (.error ("Failed to fetch SSE metadata for " ++ bfsNum ++
            ": " ++ msg)), r.cache, r.discoveryCalls⟩
        | .ok doc => ⟨.ok (normalizeSdmx lang doc), r.cache, r.discoveryCalls⟩

/-! ## Time-series data query builder (`getSseData`, sse-client.js lines 332-353) -/

/-- A value of the caller's query object: a bare string or an array of
strings. -/
inductive QueryVal where
  | str (s : String)
  | arr (vs : List String)
  deriving DecidableEq, Repr

/-- `Array.isArray(values) ? values : [values]`. -/
def queryValCodes : QueryVal → List String
  | .str s => [s]
  | .arr vs => vs

/-- JS truthiness of `query[dim]`: absent is falsy, `""` is falsy, every
array (even empty) is truthy. -/
def queryValTruthy : Option QueryVal → Bool
  | none => false
  | some (.str s) => s ≠ ""
  | some (.arr _) => true

/-- `[...new Set(l)]`: deduplicate keeping the first occurrence of each
element, preserving order. -/
def dedupFirstAux (seen : List (Option String)) :
    List (Option String) → List (Option String)
  | [] => []
  | x :: xs =>
    if x ∈ seen then dedupFirstAux seen xs
    else x :: dedupFirstAux (x :: seen) xs

/-- The sort key: `metadata.find(m => m.code === a)?.position_dimension || 0`
(an absent row, a `NaN` position and a `0` position all yield `0`). -/
def posOf (metadata : List MetaRow) (a : Option String) : Int :=
  match metadata.find? (fun m => m.code == a) with
  | none => 0
  | some m =>
    match m.position_dimension with
    | none => 0
    | some p => p

/-- Stable insertion of one element into a list sorted by `posOf` (inserted
after every element with a key less than or equal to its own). -/
def insertByPos (metadata : List MetaRow) (x : Option String) :
    List (Option String) → List (Option String)
  | [] => [x]
  | y :: ys =>
    if posOf metadata y ≤ posOf metadata x then y :: insertByPos metadata x ys
    else x :: y :: ys

/-- `.sort((a, b) => posA - posB)`: a stable sort by the position key
(ECMAScript sorts are stable). -/
def sortByPos (metadata : List MetaRow) (l : List (Option String)) :
    List (Option String) :=
  l.foldl (fun acc x => insertByPos metadata x acc) []

/-- The `urlQuery` computation of `getSseData`: `'all'` for a null query;
otherwise dimension codes deduplicated, sorted by position, mapped to the
`+`-joined selected codes (or an empty segment when the dimension is not
filtered) and joined with `.`; if every segment is empty the query falls
back to the literal `'all'`. -/
def buildSseUrlQuery (metadata : List MetaRow)
    (query : Option (List (String × QueryVal))) : String :=
  match query with
  | none => "all"
  | some q =>
    let orderedCodes := sortByPos metadata (dedupFirstAux [] (metadata.map (·.code)))
    let urlParts := orderedCodes.map (fun dim =>
      match assocGet q (keyOf dim) with
      | some v =>
        if queryValTruthy (some v) then String.intercalate "+" (queryValCodes v)
        else ""
      | none => "")
    if urlParts.all (· = "") then "all" else String.intercalate "." urlParts

/-! ## Observation normalizer (`getSseData`, sse-client.js lines 389-407) -/

/-- One `generic:Value` element of an observation key: its `id` and `value`
attributes. -/
structure ObsKeyValue where
  id : Option String
  value : Option String
  deriving DecidableEq, Repr

/-- One `generic:Obs` element: its key-value pairs
(`ObsKey[0]['generic:Value'] || []`) and the raw observation value attribute
`ObsValue[0].$.value`. -/
structure ObsXml where
  key : List ObsKeyValue
  obsValue : Option String
  deriving DecidableEq, Repr

/-- An observation record under construction: the JS object `obsData`. -/
abbrev JsObject := List (String × JsValue)

/-- `metaMatch?.valueText || dimValue` stored into the record: the resolved
label when the metadata row matched and its label is truthy, otherwise the
raw value code (which may itself be `undefined`). -/
def resolvedEntryValue (metadata : List MetaRow) (k : ObsKeyValue) : JsValue :=
  let labelOpt := (metadata.find? (fun m => m.code == k.id && m.value == k.value)).bind
    (·.valueText)
  match jsOrOpt labelOpt k.value with
  | some s => .str s
  | none => .undefined

/-- `obsValue ? parseFloat(obsValue) : null`: a missing or empty (falsy)
value attribute yields `null`, otherwise the parsed number. -/
def measureOf (obsValue : Option String) : JsValue :=
  match obsValue with
  | none => .null
  | some s => if s = "" then .null else .parsedNum s

/-- The per-observation loop body of `getSseData`: set one record entry per
key-value pair (under the key-coerced dimension id), then assign the parsed
measure to the `value` property, overwriting any entry already stored under
that key. -/
def parseObservation (metadata : List MetaRow) (obs : ObsXml) : JsObject :=
  let withDims := obs.key.foldl
    (fun acc k => assocSet acc (keyOf k.id) (resolvedEntryValue metadata k)) []
  assocSet withDims "value" (measureOf obs.obsValue)

/-! ## Tabular query builder (`getData`, pxweb-client.js lines 517-582) -/

/-- One element of the PXWEB metadata `variables` array, at the granularity
the query builder reads it (only `code` is used). -/
structure PxVariable where
  code : String
  deriving DecidableEq, Repr

/-- A selection clause of the PXWEB query payload. -/
structure PxSelection where
  filter : String
  values : List String
  deriving DecidableEq, Repr

/-- One entry of the PXWEB query payload. -/
structure PxQueryEntry where
  code : String
  selection : PxSelection
  deriving DecidableEq, Repr

/-- The JSON body `getData` posts: the query entries and the response format
passthrough. -/
structure PxQueryPayload where
  query : List PxQueryEntry
  responseFormat : String
  deriving DecidableEq, Repr

/-- The `queryPayload` construction of `getData`: with a null query, one
`all`/`['*']` entry per metadata variable in the metadata's own order; with
a non-null query, one `item` entry per `Object.entries(query)` pair in the
query object's own insertion order, the values coerced to a list. -/
def buildPxQueryPayload (vars : List PxVariable)
    (query : Option (List (String × QueryVal))) (format : String) :
    PxQueryPayload :=
  match query with
  | none =>
    ⟨vars.map (fun v => ⟨v.code, ⟨"all", ["*"]⟩⟩), format⟩
  | some q =>
    ⟨q.map (fun p => ⟨p.1, ⟨"item", queryValCodes p.2⟩⟩), format⟩

/-! ## Concrete fixtures used by witnesses and counterexamples -/

/-- A discovery response declaring the single dataflow `BFS:DF_TEST_1(1.0)`
(the URN shape used by the repository's own test fixtures). -/
def env1 : SseEnv := ⟨["Dataflow=BFS:DF_TEST_1(1.0)"]⟩

/-- The metadata URL `getSseUrl` builds for `DF_TEST_1` from `env1`. -/
def metaUrl1 : String :=
  "https://disseminate.stats.swiss/rest/dataflow/BFS/DF_TEST_1/1.0?references=all"

/-- The parsed structure document of the repository's unit-test fixture: one
dimension `GEO` at position 0 referencing codelist `CL_GEO` with the single
code `CH` labelled `Switzerland`. -/
def docTest : SdmxStructure :=
  ⟨[⟨some "GEO", some "0", some "CL_GEO"⟩],
   [⟨some "CL_GEO", [⟨some "en", some "Geography"⟩],
     [⟨some "CH", [⟨some "en", some "Switzerland"⟩]⟩]⟩]⟩

/-- The flat rows `getSseMetadata` produces from `docTest` in English. -/
def rowsTest : List MetaRow :=
  [⟨some "GEO", some "Geography", some "CH", some "Switzerland", some 0⟩]

/-- A deterministic metadata-fetch oracle serving `docTest` at `metaUrl1`. -/
def fetchTest : MetaFetch :=
  fun url _ => if url = metaUrl1 then .ok docTest else .error "HTTP 404: Not Found"

/-- Metadata rows of a dataset with three dimensions `D0`, `D1`, `D2` at
positions 0, 1, 2 (one value each). -/
def meta3 : List MetaRow :=
  [⟨some "D0", some "T0", some "x", some "X", some 0⟩,
   ⟨some "D1", some "T1", some "a", some "A", some 1⟩,
   ⟨some "D2", some "T2", some "y", some "Y", some 2⟩]

/-- A structure document mixing a dimension without a codelist reference, a
dimension whose codelist has zero codes, and an ordinary dimension. -/
def docMixed : SdmxStructure :=
  ⟨[⟨some "NOREF", some "0", none⟩,
    ⟨some "EMPTY", some "1", some "CL_E"⟩,
    ⟨some "GEO", some "2", some "CL_GEO"⟩],
   [⟨some "CL_E", [⟨some "en", some "Empty list"⟩], []⟩,
    ⟨some "CL_GEO", [⟨some "en", some "Geography"⟩],
     [⟨some "CH", [⟨some "en", some "Switzerland"⟩]⟩]⟩]⟩

/-- A discovery response declaring `BFS:DF_MIX_1(2.0)`. -/
def env2 : SseEnv := ⟨["Dataflow=BFS:DF_MIX_1(2.0)"]⟩

/-- The metadata URL `getSseUrl` builds for `DF_MIX_1` from `env2`. -/
def metaUrl2 : String :=
  "https://disseminate.stats.swiss/rest/dataflow/BFS/DF_MIX_1/2.0?references=all"

/-- An oracle serving `docMixed` for every request. -/
def fetchMixed : MetaFetch := fun _ _ => .ok docMixed

/-- A discovery response that declares only `BFS:DF_OTHER(1.0)`, so the
identifier `DF_X` matches nothing. -/
def envX : SseEnv := ⟨["Dataflow=BFS:DF_OTHER(1.0)"]⟩

/-- An oracle that is never reached (resolution fails first). -/
def fetchUnused : MetaFetch := fun _ _ => .error "unreachable"

/-- The message of the error thrown when no URN matches, after the catch
block has wrapped it. -/
def resolveNotFoundMsg (id : String) : String :=
  "Failed to resolve SSE URL for " ++ id ++ ": Dataset " ++ id ++
    " not found in SSE API"

/-- An observation whose key contains a dimension whose id is literally
`value`, resolvable against `metaValue`. -/
def obsValueDim : ObsXml := ⟨[⟨some "value", some "x"⟩], some "42"⟩

/-- Metadata rows containing a dimension whose code is literally `value`. -/
def metaValue : List MetaRow :=
  [⟨some "value", some "T", some "x", some "Label", some 0⟩]

/-- An observation with a missing observation-value attribute. -/
def obsNoValue : ObsXml := ⟨[⟨some "GEO", some "CH"⟩], none⟩

/-! ## Association-list lemmas -/

theorem assocGet_cons {α : Type} (k₀ : String) (v₀ : α)
    (rest : List (String × α)) (k : String) :
    assocGet ((k₀, v₀) :: rest) k =
      if k₀ = k then some v₀ else assocGet rest k := by
  by_cases h : k₀ = k
  · subst h
    simp [assocGet, List.find?_cons_of_pos]
  · simp [assocGet, List.find?_cons_of_neg, h]

theorem assocGet_assocSet_self {α : Type} (o : List (String × α)) (k : String)
    (v : α) : assocGet (assocSet o k v) k = some v := by
  induction o with
  | nil => simp [assocGet, assocSet]
  | cons p rest ih =>
    obtain ⟨k', v'⟩ := p
    by_cases hk : k' = k
    · subst hk
      simp [assocSet, assocGet_cons]
    · simp only [assocSet, beq_iff_eq, hk, if_false]
      rw [assocGet_cons, if_neg hk]
      exact ih

theorem assocGet_assocSet_other {α : Type} (o : List (String × α))
    (k k' : String) (v : α) (hne : k' ≠ k) :
    assocGet (assocSet o k v) k' = assocGet o k' := by
  induction o with
  | nil =>
    show assocGet [(k, v)] k' = assocGet [] k'
    rw [assocGet_cons, if_neg (Ne.symm hne)]
  | cons p rest ih =>
    obtain ⟨k₀, v₀⟩ := p
    by_cases hk : k₀ = k
    · subst hk
      simp only [assocSet, beq_self_eq_true, if_true]
      rw [assocGet_cons, assocGet_cons, if_neg (Ne.symm hne), if_neg]
      intro h
      exact hne h.symm
    · simp only [assocSet, beq_iff_eq, hk, if_false]
      rw [assocGet_cons, assocGet_cons]
      by_cases hk' : k₀ = k'
      · simp [hk']
      · rw [if_neg hk', if_neg hk']
        exact ih

theorem mem_keys_assocSet {α : Type} (o : List (String × α)) (k j : String)
    (v : α) :
    j ∈ (assocSet o k v).map Prod.fst ↔ j = k ∨ j ∈ o.map Prod.fst := by
  induction o with
  | nil => simp [assocSet]
  | cons p rest ih =>
    obtain ⟨k₀, v₀⟩ := p
    by_cases hk : k₀ = k
    · subst hk
      simp [assocSet]
    · simp only [assocSet, beq_iff_eq, hk, if_false, List.map_cons,
        List.mem_cons, ih]
      tauto

theorem nodup_keys_assocSet {α : Type} (o : List (String × α)) (k : String)
    (v : α) (h : (o.map Prod.fst).Nodup) :
    ((assocSet o k v).map Prod.fst).Nodup := by
  induction o with
  | nil => simp [assocSet]
  | cons p rest ih =>
    obtain ⟨k₀, v₀⟩ := p
    simp only [List.map_cons, List.nodup_cons] at h
    by_cases hk : k₀ = k
    · subst hk
      simpa [assocSet] using h
    · simp only [assocSet, beq_iff_eq, hk, if_false, List.map_cons,
        List.nodup_cons]
      refine ⟨fun hmem => ?_, ih h.2⟩
      rcases (mem_keys_assocSet rest k k₀ v).mp hmem with h' | h'
      · exact hk h'
      · exact h.1 h'

theorem assocGet_mem_keys {α : Type} (o : List (String × α)) (k : String)
    (v : α) (h : assocGet o k = some v) : k ∈ o.map Prod.fst := by
  induction o with
  | nil => simp [assocGet] at h
  | cons p rest ih =>
    obtain ⟨k₀, v₀⟩ := p
    rw [assocGet_cons] at h
    by_cases hk : k₀ = k
    · simp [hk]
    · rw [if_neg hk] at h
      simp only [List.map_cons, List.mem_cons]
      exact Or.inr (ih h)

/-- The keys of the record built by the per-observation fold stay free of
duplicates. -/
theorem nodup_keys_obs_fold (metadata : List MetaRow) (l : List ObsKeyValue)
    (acc : JsObject) (h : (acc.map Prod.fst).Nodup) :
    (((l.foldl
        (fun acc k => assocSet acc (keyOf k.id) (resolvedEntryValue metadata k))
        acc)).map Prod.fst).Nodup := by
  induction l generalizing acc with
  | nil => simpa using h
  | cons x xs ih =>
    exact ih _ (nodup_keys_assocSet acc (keyOf x.id) (resolvedEntryValue metadata x) h)

/-! ## String and cache-key lemmas -/

theorem string_append_right_inj {a b c : String} (h : a ++ b = a ++ c) :
    b = c := by
  obtain ⟨da⟩ := a
  obtain ⟨db⟩ := b
  obtain ⟨dc⟩ := c
  have h2 : da ++ db = da ++ dc := by
    have := congrArg String.data h
    simpa using this
  exact congrArg String.mk (List.append_cancel_left h2)

theorem cacheKey_true_ne_false (id : String) :
    cacheKeyOf id true ≠ cacheKeyOf id false := by
  intro h
  have h' : (id ++ "_") ++ "true" = (id ++ "_") ++ "false" := by
    simpa [cacheKeyOf, boolStr, String.append_assoc] using h
  exact absurd (string_append_right_inj h') (by decide)

theorem cacheKey_not_ne (id : String) (m : Bool) :
    cacheKeyOf id (!m) ≠ cacheKeyOf id m := by
  cases m with
  | true => simpa using (cacheKey_true_ne_false id).symm
  | false => simpa using cacheKey_true_ne_false id

/-! ## Resolver lemmas -/

theorem getSseUrl_hit (env : SseEnv) (cache : UrlCache) (id : String)
    (m : Bool) (url : String)
    (h : assocGet cache (cacheKeyOf id m) = some url) :
    getSseUrl env cache id m = ⟨.ok url, cache, 0⟩ := by
  simp [getSseUrl, h]

theorem getSseUrl_miss_notfound (env : SseEnv) (cache : UrlCache)
    (id : String) (m : Bool)
    (hmiss : assocGet cache (cacheKeyOf id m) = none)
    (hno : findMatchingUrn env.urns id = none) :
    getSseUrl env cache id m =
      ⟨.error (.error (resolveNotFoundMsg id)), cache, 1⟩ := by
  simp [getSseUrl, hmiss, hno, resolveNotFoundMsg]

theorem getSseUrl_miss_some (env : SseEnv) (cache : UrlCache)
    (id : String) (m : Bool) (a d ver : String)
    (hmiss : assocGet cache (cacheKeyOf id m) = none)
    (hf : findMatchingUrn env.urns id = some (a, d, ver)) :
    getSseUrl env cache id m =
      ⟨.ok (buildSseEndpointUrl a d ver m),
        assocSet cache (cacheKeyOf id m) (buildSseEndpointUrl a d ver m), 1⟩ := by
  simp [getSseUrl, hmiss, hf]

theorem getSseUrl_miss_discovery (env : SseEnv) (cache : UrlCache)
    (id : String) (m : Bool)
    (hmiss : assocGet cache (cacheKeyOf id m) = none) :
    (getSseUrl env cache id m).discoveryCalls = 1 := by
  cases hf : findMatchingUrn env.urns id with
  | none => rw [getSseUrl_miss_notfound env cache id m hmiss hf]
  | some g =>
    obtain ⟨a, d, ver⟩ := g
    rw [getSseUrl_miss_some env cache id m a d ver hmiss hf]

theorem getSseUrl_miss_ok_cache (env : SseEnv) (cache : UrlCache)
    (id : String) (m : Bool) (url : String)
    (hmiss : assocGet cache (cacheKeyOf id m) = none)
    (hok : (getSseUrl env cache id m).result = .ok url) :
    (getSseUrl env cache id m).cache = assocSet cache (cacheKeyOf id m) url := by
  cases hf : findMatchingUrn env.urns id with
  | none =>
    rw [getSseUrl_miss_notfound env cache id m hmiss hf] at hok
    exact absurd hok (by simp)
  | some g =>
    obtain ⟨a, d, ver⟩ := g
    rw [getSseUrl_miss_some env cache id m a d ver hmiss hf] at hok ⊢
    have h2 : buildSseEndpointUrl a d ver m = url := by
      simpa using hok
    show assocSet cache (cacheKeyOf id m) (buildSseEndpointUrl a d ver m)
      = assocSet cache (cacheKeyOf id m) url
    rw [h2]

theorem getSseUrl_ok_cached (env : SseEnv) (cache : UrlCache) (id : String)
    (m : Bool) (url : String)
    (hok : (getSseUrl env cache id m).result = .ok url) :
    assocGet (getSseUrl env cache id m).cache (cacheKeyOf id m) = some url := by
  cases hc : assocGet cache (cacheKeyOf id m) with
  | some u =>
    rw [getSseUrl_hit env cache id m u hc] at hok ⊢
    simp only [Except.ok.injEq] at hok
    rw [hok] at hc
    exact hc
  | none =>
    rw [getSseUrl_miss_ok_cache env cache id m url hc hok]
    exact assocGet_assocSet_self cache (cacheKeyOf id m) url

/-! ## Claim C3 -/

/-- Claim C3: with a null filter the tabular query builder requests every
dimension of the fetched metadata with the "all"/["*"] wildcard selection;
with the filter Year -> "2020" it emits exactly the single selection
["2020"] for Year; a scalar filter value is always coerced to a one-element
list. -/
theorem px_null_filter_all_and_scalar_singleton :
    (∀ (vars : List PxVariable) (format : String),
      (buildPxQueryPayload vars none format).query
        = vars.map (fun v => ⟨v.code, ⟨"all", ["*"]⟩⟩))
    ∧ (∀ format : String,
      (buildPxQueryPayload [⟨"Year"⟩, ⟨"Region"⟩]
          (some [("Year", QueryVal.str "2020")]) format).query
        = [⟨"Year", ⟨"item", ["2020"]⟩⟩])
    ∧ (∀ s : String, queryValCodes (QueryVal.str s) = [s]) :=
  ⟨fun _ _ => rfl, fun _ => rfl, fun _ => rfl⟩

/-! ## Claim C4 -/

/-- Counterexample to claim C4 as stated: for metadata variables in dataset
order [A, B] and a filter given in order [B, A], the builder emits the
entries in the filter's order ["B", "A"], not the dataset's order
["A", "B"]. -/
theorem px_query_dataset_order_cex :
    (buildPxQueryPayload [⟨"A"⟩, ⟨"B"⟩]
        (some [("B", QueryVal.str "1"), ("A", QueryVal.str "2")])
        "json-stat").query.map PxQueryEntry.code = ["B", "A"]
    ∧ (buildPxQueryPayload [⟨"A"⟩, ⟨"B"⟩]
        (some [("B", QueryVal.str "1"), ("A", QueryVal.str "2")])
        "json-stat").query.map PxQueryEntry.code ≠ ["A", "B"] := by
  exact ⟨rfl, by decide⟩

/-- Claim C4 (amended): for every non-null filter the tabular query builder
emits exactly one "item" entry per filter key, in the filter object's own
insertion order (the dataset's dimension order is not consulted), each
entry listing exactly the requested codes coerced to a list; dimensions not
named in the filter get no entry. -/
theorem px_query_follows_filter_order :
    ∀ (vars : List PxVariable) (format : String)
      (q : List (String × QueryVal)),
      (buildPxQueryPayload vars (some q) format).query
        = q.map (fun p => ⟨p.1, ⟨"item", queryValCodes p.2⟩⟩)
      ∧ (buildPxQueryPayload vars (some q) format).query.map PxQueryEntry.code
        = q.map Prod.fst := by
  intro vars format q
  refine ⟨rfl, ?_⟩
  simp only [buildPxQueryPayload, List.map_map]
  rfl

/-! ## Claim C10 -/

/-- Claim C10: the tabular builder copies filter keys verbatim and ignores
the fetched metadata entirely: the payload is identical for any two
metadata variable lists, and its entry codes are exactly the filter's keys
(filter keys are never validated against the metadata). -/
theorem px_filter_keys_never_validated :
    ∀ (vars vars' : List PxVariable) (format : String)
      (q : List (String × QueryVal)),
      buildPxQueryPayload vars (some q) format
        = buildPxQueryPayload vars' (some q) format
      ∧ (buildPxQueryPayload vars (some q) format).query.map PxQueryEntry.code
        = q.map Prod.fst := by
  intro vars vars' format q
  refine ⟨rfl, ?_⟩
  simp only [buildPxQueryPayload, List.map_map]
  rfl

/-! ## Claim C5 -/

/-- Claim C5: the time-series query builder orders dimensions by position,
joins a dimension's selected codes with `+` and the positions with `.`: for
dimensions at positions [0,1,2] with only position 1 filtered to ["A","B"]
the segment is ".A+B."; with a null filter, or when every position's
segment is empty, the segment is the literal wildcard "all". -/
theorem sse_path_segment_builder :
    buildSseUrlQuery meta3 (some [("D1", QueryVal.arr ["A", "B"])]) = ".A+B."
    ∧ (∀ metadata : List MetaRow, buildSseUrlQuery metadata none = "all")
    ∧ buildSseUrlQuery meta3 (some [("ZZZ", QueryVal.str "v")]) = "all" :=
  ⟨by decide, fun _ => rfl, by decide⟩

/-! ## Claim C6 -/

/-- Claim C6: an observation whose numeric value attribute is missing or
empty yields an explicit null measure under the "value" key of the returned
record — never a number and never an error. -/
theorem missing_obs_value_is_null (metadata : List MetaRow) (obs : ObsXml)
    (h : obs.obsValue = none ∨ obs.obsValue = some "") :
    assocGet (parseObservation metadata obs) "value" = some JsValue.null := by
  have hm : measureOf obs.obsValue = .null := by
    rcases h with h | h <;> simp [measureOf, h]
  simp only [parseObservation]
  rw [assocGet_assocSet_self, hm]

/-- Witness for C6 at a concrete observation with an absent value
attribute. -/
theorem missing_obs_value_is_null_witness :
    (obsNoValue.obsValue = none ∨ obsNoValue.obsValue = some "")
    ∧ assocGet (parseObservation metaValue obsNoValue) "value"
        = some JsValue.null :=
  ⟨Or.inl rfl, missing_obs_value_is_null metaValue obsNoValue (Or.inl rfl)⟩

/-! ## Claim C9 -/

/-- Claim C9: when an observation's key contains a dimension whose id is
exactly "value", the final assignment of the parsed measure overwrites the
dimension's resolved entry: the returned record holds exactly one "value"
binding, and it is the measure, so the dimension's resolved value is lost. -/
theorem value_dimension_overwritten (metadata : List MetaRow) (obs : ObsXml)
    (_hmem : some "value" ∈ obs.key.map ObsKeyValue.id) :
    assocGet (parseObservation metadata obs) "value"
      = some (measureOf obs.obsValue)
    ∧ ((parseObservation metadata obs).map Prod.fst).count "value" = 1 := by
  constructor
  · simp only [parseObservation]
    exact assocGet_assocSet_self _ _ _
  · have hnodup : ((parseObservation metadata obs).map Prod.fst).Nodup := by
      simp only [parseObservation]
      exact nodup_keys_assocSet _ _ _
        (nodup_keys_obs_fold metadata obs.key [] (by simp))
    have hmem' : "value" ∈ (parseObservation metadata obs).map Prod.fst := by
      simp only [parseObservation]
      exact (mem_keys_assocSet _ _ _ _).mpr (Or.inl rfl)
    exact List.count_eq_one_of_mem hnodup hmem'

/-- Witness for C9: the observation key names the dimension `value`, whose
resolved label would be `Label`, yet the record holds only the parsed
measure under the `value` key. -/
theorem value_dimension_overwritten_witness :
    (some "value" ∈ obsValueDim.key.map ObsKeyValue.id)
    ∧ assocGet (parseObservation metaValue obsValueDim) "value"
        = some (measureOf obsValueDim.obsValue)
    ∧ parseObservation metaValue obsValueDim
        = [("value", JsValue.parsedNum "42")] := by
  refine ⟨by decide, ?_, by decide⟩
  exact (value_dimension_overwritten metaValue obsValueDim (by decide)).1

/-! ## Claim C1 -/

/-- Counterexample to claim C1 as stated: after a successful
metadata-purpose resolution of DF_TEST_1 (one discovery call, result
cached), resolving the data purpose for the same identifier performs a
second discovery call — the code cached only the requested purpose, not
both. -/
theorem resolver_second_purpose_discovery_cex :
    (getSseUrl env1 [] "DF_TEST_1" true).result = .ok metaUrl1
    ∧ (getSseUrl env1 (getSseUrl env1 [] "DF_TEST_1" true).cache
        "DF_TEST_1" false).discoveryCalls = 1 :=
  ⟨rfl, rfl⟩

/-- Claim C1 (amended): a successful discovery call caches the resolved URL
only under the requested purpose's key; the other purpose's key stays
absent, and a later resolution of the other purpose for the same dataset
identifier performs its own (second) discovery call. -/
theorem resolver_caches_only_requested_purpose
    (env : SseEnv) (cache : UrlCache) (id : String) (m : Bool) (url : String)
    (h1 : assocGet cache (cacheKeyOf id m) = none)
    (h2 : assocGet cache (cacheKeyOf id (!m)) = none)
    (hok : (getSseUrl env cache id m).result = .ok url) :
    assocGet (getSseUrl env cache id m).cache (cacheKeyOf id m) = some url
    ∧ assocGet (getSseUrl env cache id m).cache (cacheKeyOf id (!m)) = none
    ∧ (getSseUrl env (getSseUrl env cache id m).cache id (!m)).discoveryCalls
        = 1 := by
  have hcache := getSseUrl_miss_ok_cache env cache id m url h1 hok
  have hother : assocGet (getSseUrl env cache id m).cache
      (cacheKeyOf id (!m)) = none := by
    rw [hcache, assocGet_assocSet_other _ _ _ _ (cacheKey_not_ne id m)]
    exact h2
  exact ⟨getSseUrl_ok_cached env cache id m url hok, hother,
    getSseUrl_miss_discovery env _ id (!m) hother⟩

/-- Witness for the amended C1 at the concrete dataset DF_TEST_1 resolved
for the metadata purpose from an empty cache. -/
theorem resolver_caches_only_requested_purpose_witness :
    assocGet ([] : UrlCache) (cacheKeyOf "DF_TEST_1" true) = none
    ∧ assocGet ([] : UrlCache) (cacheKeyOf "DF_TEST_1" false) = none
    ∧ (getSseUrl env1 [] "DF_TEST_1" true).result = .ok metaUrl1
    ∧ (assocGet (getSseUrl env1 [] "DF_TEST_1" true).cache
          (cacheKeyOf "DF_TEST_1" true) = some metaUrl1
       ∧ assocGet (getSseUrl env1 [] "DF_TEST_1" true).cache
          (cacheKeyOf "DF_TEST_1" false) = none
       ∧ (getSseUrl env1 (getSseUrl env1 [] "DF_TEST_1" true).cache
          "DF_TEST_1" false).discoveryCalls = 1) := by
  refine ⟨rfl, rfl, rfl, ?_⟩
  exact resolver_caches_only_requested_purpose env1 [] "DF_TEST_1" true
    metaUrl1 rfl rfl rfl

/-! ## Claim C2 -/

/-- Claim C2: resolution is idempotent — after a successful getSseMetadata
call, an immediate second call with the same arguments hits the cached
endpoint (zero discovery calls), leaves the cache unchanged and returns
identical dimension content. -/
theorem getSseMetadata_idempotent
    (env : SseEnv) (fetchMeta : MetaFetch) (cache : UrlCache)
    (id language : String) (dims : List MetaRow)
    (h : (getSseMetadata env fetchMeta cache id language).result = .ok dims) :
    getSseMetadata env fetchMeta
        (getSseMetadata env fetchMeta cache id language).cache id language
      = ⟨.ok dims, (getSseMetadata env fetchMeta cache id language).cache, 0⟩ := by
  cases hv : validateLanguage language with
  | error e => simp [getSseMetadata, hv] at h
  | ok lang =>
    cases hb : formatBfsNumber id with
    | error e => simp [getSseMetadata, hv, hb] at h
    | ok bfs =>
      cases hr : (getSseUrl env cache bfs true).result with
      | error e => simp [getSseMetadata, hv, hb, hr] at h
      | ok url =>
        cases hfm : fetchMeta url lang with
        | error msg => simp [getSseMetadata, hv, hb, hr, hfm] at h
        | ok doc =>
          have hdims : normalizeSdmx lang doc = dims := by
            simpa [getSseMetadata, hv, hb, hr, hfm] using h
          have hcached : assocGet (getSseUrl env cache bfs true).cache
              (cacheKeyOf bfs true) = some url :=
            getSseUrl_ok_cached env cache bfs true url hr
          have hc1 : (getSseMetadata env fetchMeta cache id language).cache
              = (getSseUrl env cache bfs true).cache := by
            simp [getSseMetadata, hv, hb, hr, hfm]
          have hhit := getSseUrl_hit env (getSseUrl env cache bfs true).cache
            bfs true url hcached
          rw [hc1]
          simp [getSseMetadata, hv, hb, hhit, hfm, hdims]

/-- Witness for C2 at the concrete dataset DF_TEST_1 with the test
structure document served at its metadata URL. -/
theorem getSseMetadata_idempotent_witness :
    (getSseMetadata env1 fetchTest [] "DF_TEST_1" "en").result = .ok rowsTest
    ∧ getSseMetadata env1 fetchTest
          (getSseMetadata env1 fetchTest [] "DF_TEST_1" "en").cache
          "DF_TEST_1" "en"
        = ⟨.ok rowsTest,
           (getSseMetadata env1 fetchTest [] "DF_TEST_1" "en").cache, 0⟩ :=
  ⟨rfl, getSseMetadata_idempotent env1 fetchTest [] "DF_TEST_1" "en" rowsTest rfl⟩

/-! ## Claim C7 -/

/-- Counterexample to claim C7 as stated: resolving an identifier that
matches no discovered URN fails with the code's one generic error shape
(`new Error(message)`, modelled by the single constructor of JsError) —
there is no distinct NotFoundError type, only a message — and
getSseMetadata propagates the same generic error. -/
theorem notfound_generic_error_cex :
    getSseUrl envX [] "DF_X" true
      = ⟨.error (JsError.error (resolveNotFoundMsg "DF_X")), [], 1⟩
    ∧ (getSseMetadata envX fetchUnused [] "DF_X" "en").result
      = .error (JsError.error (resolveNotFoundMsg "DF_X")) :=
  ⟨rfl, rfl⟩

/-- Claim C7 (amended): when the identifier matches no discovered URN (and
is not cached), resolution fails with the error whose message names the
dataset and states it was not found in the SSE API, wrapped by the
resolve-failure prefix, and getSseMetadata propagates that error unchanged;
the error value is the code's generic Error, distinguished only by this
message. -/
theorem notfound_error_message
    (env : SseEnv) (fetchMeta : MetaFetch) (cache : UrlCache) (id : String)
    (m : Bool)
    (hmiss : assocGet cache (cacheKeyOf id m) = none)
    (hmissT : assocGet cache (cacheKeyOf id true) = none)
    (hno : findMatchingUrn env.urns id = none)
    (htrim : jsTrim id = id) (hne : id ≠ "") :
    getSseUrl env cache id m
      = ⟨.error (.error (resolveNotFoundMsg id)), cache, 1⟩
    ∧ (getSseMetadata env fetchMeta cache id "en").result
      = .error (.error (resolveNotFoundMsg id)) := by
  refine ⟨getSseUrl_miss_notfound env cache id m hmiss hno, ?_⟩
  have hv : validateLanguage "en" = .ok "en" := rfl
  have hb : formatBfsNumber id = .ok id := by
    simp [formatBfsNumber, hne, htrim]
  have hr := getSseUrl_miss_notfound env cache id true hmissT hno
  simp [getSseMetadata, hv, hb, hr]

/-- Witness for the amended C7 at the concrete identifier DF_X against a
discovery response declaring only DF_OTHER. -/
theorem notfound_error_message_witness :
    getSseUrl envX [] "DF_X" true
      = ⟨.error (.error (resolveNotFoundMsg "DF_X")), [], 1⟩
    ∧ (getSseMetadata envX fetchUnused [] "DF_X" "en").result
      = .error (.error (resolveNotFoundMsg "DF_X")) :=
  notfound_error_message envX fetchUnused [] "DF_X" true rfl rfl rfl rfl
    (by decide)

/-! ## Claim C8 -/

/-- Claim C8: a dimension with no codelist reference, or whose referenced
codelist has zero codes, contributes no rows (its value list is empty in
the flat row representation getSseMetadata returns), and the call as a
whole never fails because of it: whenever the metadata fetch succeeds,
getSseMetadata returns ok with the concatenated rows of all dimensions. -/
theorem empty_codelist_dimension_is_harmless :
    (∀ (clMap : List (String × List CodeEntry))
       (clNames : List (String × Option String)) (dim : DimInfo),
       dim.codelistRef = none → rowsForDim clMap clNames dim = [])
    ∧ (∀ (clMap : List (String × List CodeEntry))
         (clNames : List (String × Option String)) (dim : DimInfo)
         (ref : String), dim.codelistRef = some ref →
         assocGet clMap ref = some [] → rowsForDim clMap clNames dim = [])
    ∧ (∀ (env : SseEnv) (fetchMeta : MetaFetch) (cache : UrlCache)
         (id language lang bfsNum url : String) (doc : SdmxStructure),
         validateLanguage language = .ok lang →
         formatBfsNumber id = .ok bfsNum →
         (getSseUrl env cache bfsNum true).result = .ok url →
         fetchMeta url lang = .ok doc →
         (getSseMetadata env fetchMeta cache id language).result
           = .ok (normalizeSdmx lang doc)) := by
  refine ⟨?_, ?_, ?_⟩
  · intro clMap clNames dim h
    simp [rowsForDim, h]
  · intro clMap clNames dim ref h href
    by_cases hr : ref = ""
    · simp [rowsForDim, h, hr]
    · simp [rowsForDim, h, hr, href]
  · intro env fetchMeta cache id language lang bfsNum url doc hv hb hr hfm
    simp [getSseMetadata, hv, hb, hr, hfm]

/-- Witness for C8 on a mixed structure document: the referenceless
dimension and the empty-codelist dimension yield no rows, and the whole
call succeeds with exactly the ordinary dimension's rows. -/
theorem empty_codelist_dimension_is_harmless_witness :
    rowsForDim (buildCodelistMap "en" docMixed.codelists)
        (buildCodelistNames "en" docMixed.codelists)
        ⟨some "NOREF", some 0, none⟩ = []
    ∧ rowsForDim (buildCodelistMap "en" docMixed.codelists)
        (buildCodelistNames "en" docMixed.codelists)
        ⟨some "EMPTY", some 1, some "CL_E"⟩ = []
    ∧ (getSseMetadata env2 fetchMixed [] "DF_MIX_1" "en").result
        = .ok (normalizeSdmx "en" docMixed)
    ∧ normalizeSdmx "en" docMixed
        = [⟨some "GEO", some "Geography", some "CH", some "Switzerland",
            some 2⟩] := by
  refine ⟨empty_codelist_dimension_is_harmless.1 _ _ _ rfl,
    empty_codelist_dimension_is_harmless.2.1 _ _ _ "CL_E" rfl (by decide),
    empty_codelist_dimension_is_harmless.2.2 env2 fetchMixed [] "DF_MIX_1"
      "en" "en" "DF_MIX_1" metaUrl2 docMixed rfl rfl rfl rfl,
    by decide⟩

end BfsMcp
